import Mathlib

/-!
Shallow embedding of the Lite Cycles game (src/lite_cycles.py): the `Player`
entity (movement, direction changes, trail bookkeeping, collision checks),
the `AIPlayer` decision rule, and the `TronGame` session state machine
(input queue, per-tick update, reset, key handling), with proofs of the
specified properties of the core simulation.

Modelling notes:
* Coordinates are integers.  In the source, positions start at integer
  multiples of `GRID_SIZE` and every move adds `direction * (GRID_SIZE * 1.5)
  = direction * 30.0` componentwise; all values stay exact integers well
  inside the range where Python float arithmetic is exact, so the integer
  model is faithful.
* `pygame.time.get_ticks()` is modelled by passing the current time to
  `update` as an argument `now`.
* The resolution the display reports after switching to fullscreen is a
  parameter `fs` of `toggle_fullscreen` / `handle_key_event`; `K_ESCAPE`
  terminates the process, modelled by `handle_key_event` returning `none`.
* Rendering and sound are omitted: they read but never write the simulation
  state.  The unused `last_decision_time` / `decision_interval` fields of
  `AIPlayer` and the unused `speed` field are never read by the source's
  game logic; `speed` is kept, the two timing fields are omitted.
-/

set_option linter.unusedVariables false

def WINDOW_WIDTH : Int := 1400

def WINDOW_HEIGHT : Int := 900

def GRID_SIZE : Int := 20

def NEON_BLUE : Int × Int × Int := (0, 255, 255)

def NEON_ORANGE : Int × Int × Int := (255, 128, 0)

/-- The game states `MENU = 0`, `PLAYING = 1`, `GAME_OVER = 2` of the source. -/
inductive GState where
  | MENU
  | PLAYING
  | GAME_OVER
  deriving DecidableEq, Repr

/-- The pygame key constants the game reacts to. -/
inductive Key where
  | K_UP
  | K_DOWN
  | K_LEFT
  | K_RIGHT
  | K_w
  | K_s
  | K_a
  | K_d
  | K_f
  | K_ESCAPE
  | K_1
  | K_2
  | K_r
  | K_m
  deriving DecidableEq, Repr

/-- The `Player` class: position, color, control bindings, name, heading,
trail, alive flag, speed.  `isAI` models the Python subclass tag that
`isinstance(self.player2, AIPlayer)` inspects. -/
structure Player where
  x : Int
  y : Int
  color : Int × Int × Int
  controls : List (Key × (Int × Int))
  name : String
  direction : Int × Int
  trail : List (Int × Int)
  alive : Bool
  speed : Int
  isAI : Bool

/-- `Player.__init__`: heading right, trail seeded with the start cell. -/
def Player.init (x y : Int) (color : Int × Int × Int)
    (controls : List (Key × (Int × Int))) (name : String) : Player :=
  { x := x, y := y, color := color, controls := controls, name := name,
    direction := (1, 0), trail := [(x, y)], alive := true,
    speed := GRID_SIZE, isAI := false }

/-- `AIPlayer.__init__`: a `Player` with empty controls, heading left. -/
def AIPlayer.init (x y : Int) (color : Int × Int × Int) (name : String) : Player :=
  { Player.init x y color [] name with direction := (-1, 0), isAI := true }

/-- The per-move step `GRID_SIZE * 1.5 = 30.0`, exact in float and in `Int`. -/
def move_distance : Int := GRID_SIZE * 3 / 2

/-- `Player.move`: no-op when dead; otherwise advance by
`direction * move_distance`, append the new position to the trail, and keep
only the most recent 1000 trail cells (`trail[-1000:]`). -/
def Player.move (p : Player) : Player :=
  if !p.alive then p
  else
    let nx := p.x + p.direction.1 * move_distance
    let ny := p.y + p.direction.2 * move_distance
    let tr := p.trail ++ [(nx, ny)]
    let tr2 := if 1000 < tr.length then tr.drop (tr.length - 1000) else tr
    { p with x := nx, y := ny, trail := tr2 }

/-- `Player.change_direction`: no-op when dead; adopt the new heading unless
it is the exact opposite of the current one. -/
def Player.change_direction (p : Player) (new_direction : Int × Int) : Player :=
  if !p.alive then p
  else if new_direction ≠ (-p.direction.1, -p.direction.2) then
    { p with direction := new_direction }
  else p

/-- The inlined cell-overlap test of the source's collision loops:
both coordinate differences strictly below `GRID_SIZE`. -/
def overlaps (hx hy : Int) (c : Int × Int) : Bool :=
  decide (|hx - c.1| < GRID_SIZE ∧ |hy - c.2| < GRID_SIZE)

/-- `Player.check_collision`: false when dead; else wall check
(`x < 0 ∨ x ≥ w ∨ y < 0 ∨ y ≥ h`), then own trail minus its last entry
(guarded by `len(trail) > 1`), then the opponent's full trail.  The `walls`
argument is accepted and ignored, exactly as in the source. -/
def Player.check_collision (p other_player : Player) (walls : List (Int × Int))
    (screen_width screen_height : Int) : Bool :=
  if !p.alive then false
  else if p.x < 0 ∨ p.x ≥ screen_width ∨ p.y < 0 ∨ p.y ≥ screen_height then true
  else if decide (1 < p.trail.length) &&
      p.trail.dropLast.any (fun c => overlaps p.x p.y c) then true
  else if other_player.trail.any (fun c => overlaps p.x p.y c) then true
  else false

/-- `Player.crash`: set `alive := false`. -/
def Player.crash (p : Player) : Player := { p with alive := false }

/-- The body of the candidate loop in `AIPlayer.make_decision`: a heading is
kept when one full step along it stays inside the bounds and overlaps neither
the AI's own trail minus its last entry nor the opponent's full trail. -/
def safe_direction (p other_player : Player) (screen_width screen_height : Int)
    (d : Int × Int) : Bool :=
  let test_x := p.x + d.1 * move_distance
  let test_y := p.y + d.2 * move_distance
  if test_x < 0 ∨ test_x ≥ screen_width ∨ test_y < 0 ∨ test_y ≥ screen_height then false
  else if p.trail.dropLast.any (fun c => overlaps test_x test_y c) then false
  else if other_player.trail.any (fun c => overlaps test_x test_y c) then false
  else true

/-- `AIPlayer.make_decision`: no-op when dead; enumerate
`[(1,0), (-1,0), (0,1), (0,-1)]` minus the opposite of the current heading,
filter the safe ones, keep the current heading when it is safe, else the
first safe candidate, else the first candidate; apply via
`change_direction`.  `headD` stands for Python's `directions[0]`; the
candidate list provably never becomes empty, so the default is unreachable. -/
def AIPlayer.make_decision (p other_player : Player) (walls : List (Int × Int))
    (screen_width screen_height : Int) : Player :=
  if !p.alive then p
  else
    let directions : List (Int × Int) := [(1, 0), (-1, 0), (0, 1), (0, -1)]
    let opposite_direction := (-p.direction.1, -p.direction.2)
    let directions := directions.filter (fun d => decide (d ≠ opposite_direction))
    let safe_directions :=
      directions.filter (fun d => safe_direction p other_player screen_width screen_height d)
    let new_direction :=
      match safe_directions with
      | [] => directions.headD (1, 0)
      | d :: _ => if p.direction ∈ safe_directions then p.direction else d
    p.change_direction new_direction

/-- The `TronGame` session state: display, phase, timer, winner, the two
players, mode flag and the FIFO input queue. -/
structure TronGame where
  fullscreen : Bool
  screen_width : Int
  screen_height : Int
  state : GState
  game_over_timer : Nat
  winner : Option String
  player1 : Player
  player2 : Player
  ai_mode : Bool
  input_queue : List Key

/-- Player 1's control dict: arrow keys. -/
def player1_controls : List (Key × (Int × Int)) :=
  [(Key.K_UP, (0, -1)), (Key.K_DOWN, (0, 1)), (Key.K_LEFT, (-1, 0)), (Key.K_RIGHT, (1, 0))]

/-- Player 2's control dict in two-player mode: WASD. -/
def player2_controls : List (Key × (Int × Int)) :=
  [(Key.K_w, (0, -1)), (Key.K_s, (0, 1)), (Key.K_a, (-1, 0)), (Key.K_d, (1, 0))]

/-- `TronGame.toggle_fullscreen`: flip the flag; the display reports `fs`
when entering fullscreen and the fixed window size when leaving it. -/
def toggle_fullscreen (fs : Int × Int) (g : TronGame) : TronGame :=
  if !g.fullscreen then
    { g with fullscreen := true, screen_width := fs.1, screen_height := fs.2 }
  else
    { g with fullscreen := false, screen_width := WINDOW_WIDTH, screen_height := WINDOW_HEIGHT }

/-- `TronGame.reset_game`: grid-aligned start positions from the current
screen size (Python `//` is floor division, `Int.fdiv`); player 1 a fresh
`Player` at a quarter width, player 2 at three quarter width — an `AIPlayer`
in AI mode, a WASD `Player` otherwise; phase `PLAYING`, timer and winner and
queue cleared. -/
def reset_game (g : TronGame) : TronGame :=
  let grid_cols := Int.fdiv g.screen_width GRID_SIZE
  let grid_rows := Int.fdiv g.screen_height GRID_SIZE
  let player1_x := (Int.fdiv grid_cols 4) * GRID_SIZE
  let player1_y := (Int.fdiv grid_rows 2) * GRID_SIZE
  let player1 := Player.init player1_x player1_y NEON_BLUE player1_controls "Player 1"
  let player2_x := (Int.fdiv (3 * grid_cols) 4) * GRID_SIZE
  let player2_y := (Int.fdiv grid_rows 2) * GRID_SIZE
  let player2 :=
    if g.ai_mode then AIPlayer.init player2_x player2_y NEON_ORANGE "AI"
    else Player.init player2_x player2_y NEON_ORANGE player2_controls "Player 2"
  { g with
    player1 := player1, player2 := player2, state := GState.PLAYING,
    game_over_timer := 0, winner := none, input_queue := [] }

/-- One iteration of the `process_input_queue` loop body applied to one
popped key: route it to player 1's dict, then (two-player mode only) to
player 2's dict, each via `change_direction`. -/
def apply_key (ai_mode : Bool) (p1 p2 : Player) (key : Key) : Player × Player :=
  let p1' :=
    match p1.controls.lookup key with
    | some d => p1.change_direction d
    | none => p1
  let p2' :=
    if !ai_mode then
      match p2.controls.lookup key with
      | some d => p2.change_direction d
      | none => p2
    else p2
  (p1', p2')

/-- The `while self.input_queue and self.state == PLAYING` loop of
`process_input_queue`: pop the oldest key and apply it while the phase is
`PLAYING` (the loop body never changes the phase, so it is threaded as a
constant), else stop with the rest of the queue untouched. -/
def drainQueue (st : GState) (ai_mode : Bool) :
    List Key → Player × Player → (Player × Player) × List Key
  | [], ps => (ps, [])
  | key :: rest, ps =>
    if st = GState.PLAYING then drainQueue st ai_mode rest (apply_key ai_mode ps.1 ps.2 key)
    else (ps, key :: rest)

/-- `TronGame.process_input_queue`: drain the FIFO queue into the players. -/
def process_input_queue (g : TronGame) : TronGame :=
  let r := drainQueue g.state g.ai_mode g.input_queue (g.player1, g.player2)
  { g with player1 := r.1.1, player2 := r.1.2, input_queue := r.2 }

/-- The eight movement keys queued by `handle_key_event` while playing. -/
def directional_keys : List Key :=
  [Key.K_UP, Key.K_DOWN, Key.K_LEFT, Key.K_RIGHT, Key.K_w, Key.K_s, Key.K_a, Key.K_d]

/-- `TronGame.handle_key_event`: `K_f` toggles fullscreen (and then still
falls through to the phase dispatch, as in the source), `K_ESCAPE` quits
(`none`); in `MENU`, `K_1`/`K_2` select the mode and reset; in `GAME_OVER`,
`K_r` restarts and `K_m` returns to the menu; in `PLAYING`, movement keys
are appended to the input queue. -/
def handle_key_event (fs : Int × Int) (g0 : TronGame) (key : Key) : Option TronGame :=
  let g := if key = Key.K_f then toggle_fullscreen fs g0 else g0
  if key = Key.K_ESCAPE then none
  else some
    (match g.state with
     | GState.MENU =>
       if key = Key.K_1 then reset_game { g with ai_mode := false }
       else if key = Key.K_2 then reset_game { g with ai_mode := true }
       else g
     | GState.GAME_OVER =>
       if key = Key.K_r then reset_game g
       else if key = Key.K_m then { g with state := GState.MENU }
       else g
     | GState.PLAYING =>
       if key ∈ directional_keys then { g with input_queue := g.input_queue ++ [key] }
       else g)

/-- The AI paragraph of `TronGame.update`: in AI mode, when player 2 is an
`AIPlayer`, let it decide against player 1's current state. -/
def ai_step (g : TronGame) : TronGame :=
  if g.ai_mode && g.player2.isAI then
    { g with player2 :=
        AIPlayer.make_decision g.player2 g.player1 [] g.screen_width g.screen_height }
  else g

/-- The collision paragraph of `TronGame.update`: check player 1 against
player 2 and crash it on a hit, then check player 2 against the (possibly
just-crashed, trail-unchanged) player 1 and crash it on a hit. -/
def collide_step (screen_width screen_height : Int) (p1 p2 : Player) : Player × Player :=
  let p1' := if p1.check_collision p2 [] screen_width screen_height then p1.crash else p1
  let p2' := if p2.check_collision p1' [] screen_width screen_height then p2.crash else p2
  (p1', p2')

/-- The game-over paragraph of `TronGame.update`: when a player is dead,
move to `GAME_OVER`, record the time, and set the winner: "Tie" when both
are dead, else the surviving player's name. -/
def game_over_step (g : TronGame) (now : Nat) : TronGame :=
  if !g.player1.alive || !g.player2.alive then
    { g with
      state := GState.GAME_OVER, game_over_timer := now,
      winner :=
        if !g.player1.alive && !g.player2.alive then some "Tie"
        else if !g.player1.alive then some g.player2.name
        else some g.player1.name }
  else g

/-- `TronGame.update`: return unchanged unless `PLAYING`; otherwise drain
the input queue, run the AI, move both players, evaluate both collisions,
and resolve game over.  `now` stands for `pygame.time.get_ticks()`. -/
def update (g : TronGame) (now : Nat) : TronGame :=
  if g.state ≠ GState.PLAYING then g
  else
    let g1 := ai_step (process_input_queue g)
    let p1 := g1.player1.move
    let p2 := g1.player2.move
    let r := collide_step g1.screen_width g1.screen_height p1 p2
    game_over_step { g1 with player1 := r.1, player2 := r.2 } now

/-- The four unit headings in the enumeration order of
`AIPlayer.make_decision`: right, left, down, up. -/
def headings : List (Int × Int) := [(1, 0), (-1, 0), (0, 1), (0, -1)]

/-- A player-level operation: one `move()` call or one `change_direction`
call, for stating reachability invariants. -/
inductive POp where
  | doMove : POp
  | doTurn : Int × Int → POp

/-- Apply one player-level operation. -/
def apply_op (p : Player) (o : POp) : Player :=
  match o with
  | POp.doMove => p.move
  | POp.doTurn d => p.change_direction d

/-- Run a sequence of player-level operations, oldest first. -/
def run_ops (p : Player) (ops : List POp) : Player := ops.foldl apply_op p

/-- A freshly constructed session, as `TronGame.__init__` leaves it: windowed
display, `MENU` phase, zero timer, no winner, two-player mode, empty queue.
The source leaves both players as `None` until the first reset; the model
uses an inert placeholder player, which no pre-reset code path reads. -/
def placeholder_player : Player := Player.init 0 0 NEON_BLUE [] "Player"

def initial_game : TronGame :=
  { fullscreen := false, screen_width := WINDOW_WIDTH, screen_height := WINDOW_HEIGHT,
    state := GState.MENU, game_over_timer := 0, winner := none,
    player1 := placeholder_player, player2 := placeholder_player,
    ai_mode := false, input_queue := [] }

lemma dropLast_eq_nil_of_length_le_one {α : Type} (l : List α) (h : l.length ≤ 1) :
    l.dropLast = [] := by
  cases l with
  | nil => rfl
  | cons a t =>
    cases t with
    | nil => rfl
    | cons b u => simp at h

/-- C7: a dead player's `move`, `change_direction` and AI `make_decision`
calls leave the player record (position, heading, trail included) entirely
unchanged. -/
theorem dead_player_frozen (p other_player : Player) (d : Int × Int)
    (walls : List (Int × Int)) (w h : Int) (hdead : p.alive = false) :
    p.move = p ∧ p.change_direction d = p ∧
      AIPlayer.make_decision p other_player walls w h = p := by
  refine ⟨?_, ?_, ?_⟩ <;>
    simp [Player.move, Player.change_direction, AIPlayer.make_decision, hdead]

/-- A concrete dead player for the C7 witness. -/
def dead_sample : Player :=
  { Player.init 100 200 NEON_BLUE player1_controls "Player 1" with alive := false }

/-- Witness for C7 at a concrete dead player. -/
theorem dead_player_frozen_w :
    dead_sample.move = dead_sample ∧ dead_sample.change_direction (0, 1) = dead_sample ∧
      AIPlayer.make_decision dead_sample dead_sample [] 1400 900 = dead_sample :=
  dead_player_frozen dead_sample dead_sample (0, 1) [] 1400 900 rfl

/-- C10: while the phase is `MENU` or `GAME_OVER`, `update` is a complete
no-op: the session record (players, winner, timer, queue, phase) is
returned unchanged. -/
theorem update_menu_gameover_noop (g : TronGame) (now : Nat)
    (h : g.state = GState.MENU ∨ g.state = GState.GAME_OVER) :
    update g now = g := by
  rcases h with h | h <;> simp [update, h]

/-- Witness for C10 at the freshly constructed (menu-phase) session. -/
theorem update_menu_gameover_noop_w : update initial_game 7 = initial_game :=
  update_menu_gameover_noop initial_game 7 (Or.inl rfl)

lemma move_components (p : Player) (h : p.alive = true) :
    p.move.x = p.x + p.direction.1 * move_distance ∧
    p.move.y = p.y + p.direction.2 * move_distance ∧
    p.move.trail =
      (if 1000 < p.trail.length + 1 then
        (p.trail ++ [(p.x + p.direction.1 * move_distance,
          p.y + p.direction.2 * move_distance)]).drop (p.trail.length + 1 - 1000)
      else p.trail ++ [(p.x + p.direction.1 * move_distance,
        p.y + p.direction.2 * move_distance)]) := by
  refine ⟨?_, ?_, ?_⟩ <;> simp [Player.move, h]

/-- C5: an alive player's `move` advances the position by
`direction * move_distance`, appends the new head as the last trail element,
grows the trail by exactly one while below the 1000-cell cap, keeps it at
1000 with the oldest cell evicted once the cap is reached, and never
returns a trail longer than 1000. -/
theorem move_spec (p : Player) (h : p.alive = true) :
    p.move.x = p.x + p.direction.1 * move_distance ∧
    p.move.y = p.y + p.direction.2 * move_distance ∧
    p.move.trail.getLast? = some (p.move.x, p.move.y) ∧
    (p.trail.length < 1000 →
      p.move.trail = p.trail ++ [(p.move.x, p.move.y)] ∧
      p.move.trail.length = p.trail.length + 1) ∧
    (p.trail.length = 1000 →
      p.move.trail = p.trail.drop 1 ++ [(p.move.x, p.move.y)] ∧
      p.move.trail.length = 1000) ∧
    p.move.trail.length ≤ 1000 := by
  obtain ⟨hx, hy, htr⟩ := move_components p h
  rw [← hx, ← hy] at htr
  refine ⟨hx, hy, ?_, ?_, ?_, ?_⟩
  · rw [htr]
    split_ifs with hlen
    · rw [List.drop_append_of_le_length (by omega)]
      exact List.getLast?_concat _
    · exact List.getLast?_concat _
  · intro hshort
    rw [htr, if_neg (by omega)]
    exact ⟨rfl, by simp⟩
  · intro hcap
    have h1 : p.trail.length + 1 - 1000 = 1 := by omega
    rw [htr, if_pos (by omega), h1, List.drop_append_of_le_length (by omega)]
    refine ⟨rfl, ?_⟩
    simp only [List.length_append, List.length_drop, List.length_cons, List.length_nil]
    omega
  · rw [htr]
    split_ifs with hlen
    · simp only [List.length_drop, List.length_append, List.length_cons, List.length_nil]
      omega
    · simp only [List.length_append, List.length_cons, List.length_nil]
      omega

/-- A concrete alive player for the C5 witness. -/
def move_sample : Player := Player.init 340 440 NEON_BLUE player1_controls "Player 1"

/-- Witness for C5 at a concrete alive player. -/
theorem move_spec_w :
    move_sample.move.x = move_sample.x + move_sample.direction.1 * move_distance ∧
    move_sample.move.y = move_sample.y + move_sample.direction.2 * move_distance ∧
    move_sample.move.trail.getLast? = some (move_sample.move.x, move_sample.move.y) ∧
    (move_sample.trail.length < 1000 →
      move_sample.move.trail = move_sample.trail ++ [(move_sample.move.x, move_sample.move.y)] ∧
      move_sample.move.trail.length = move_sample.trail.length + 1) ∧
    (move_sample.trail.length = 1000 →
      move_sample.move.trail = move_sample.trail.drop 1 ++ [(move_sample.move.x, move_sample.move.y)] ∧
      move_sample.move.trail.length = 1000) ∧
    move_sample.move.trail.length ≤ 1000 :=
  move_spec move_sample rfl

lemma heading_ne_opposite (v : Int × Int) (hv : v ∈ headings) : v ≠ (-v.1, -v.2) := by
  fin_cases hv <;> decide

lemma change_direction_mem_headings (p : Player) (e : Int × Int)
    (hp : p.direction ∈ headings) (he : e ∈ headings) :
    (p.change_direction e).direction ∈ headings := by
  unfold Player.change_direction
  split_ifs with h1 h2
  · exact hp
  · simpa using he
  · exact hp

lemma foldl_change_direction_mem (ds : List (Int × Int)) (p : Player)
    (hp : p.direction ∈ headings) (hds : ∀ e ∈ ds, e ∈ headings) :
    (ds.foldl Player.change_direction p).direction ∈ headings := by
  induction ds generalizing p with
  | nil => exact hp
  | cons e rest ih =>
    simp only [List.foldl_cons]
    exact ih (p.change_direction e)
      (change_direction_mem_headings p e hp (hds e (by simp)))
      (fun x hx => hds x (by simp [hx]))

/-- C4: for an alive player, `change_direction d` adopts `d` exactly when
`d` is not the componentwise negation of the current heading and otherwise
leaves the heading unchanged; the resulting heading is never the exact
opposite of the heading held just before the call, and heading membership
in the four unit headings is preserved under any sequence of calls (so the
per-call statement covers the last call of any sequence). -/
theorem change_direction_spec (p : Player) (d : Int × Int)
    (hp : p.direction ∈ headings) (hd : d ∈ headings) :
    (p.alive = true →
      (p.change_direction d).direction =
        if d = (-p.direction.1, -p.direction.2) then p.direction else d) ∧
    (p.change_direction d).direction ≠ (-p.direction.1, -p.direction.2) ∧
    (∀ ds : List (Int × Int), (∀ e ∈ ds, e ∈ headings) →
      (ds.foldl Player.change_direction p).direction ∈ headings) := by
  have hnz := heading_ne_opposite p.direction hp
  refine ⟨?_, ?_, fun ds hds => foldl_change_direction_mem ds p hp hds⟩
  · intro ha
    unfold Player.change_direction
    simp only [ha, Bool.not_true, Bool.false_eq_true, if_false, ne_eq, ite_not]
    by_cases hne : d = (-p.direction.1, -p.direction.2) <;> simp [hne]
  · unfold Player.change_direction
    by_cases ha : p.alive
    · simp only [ha, Bool.not_true, Bool.false_eq_true, if_false, ne_eq, ite_not]
      by_cases hne : d = (-p.direction.1, -p.direction.2)
      · simpa [hne] using hnz
      · simpa [hne] using hne
    · simp only [Bool.not_eq_true] at ha
      simp [ha, hnz]

/-- A concrete alive player (heading right) for the C4 witness. -/
def cd_sample : Player := Player.init 340 440 NEON_BLUE player1_controls "Player 1"

/-- Witness for C4 at a concrete player and requested heading. -/
theorem change_direction_spec_w :
    (cd_sample.alive = true →
      (cd_sample.change_direction (0, 1)).direction =
        if ((0 : Int), (1 : Int)) = (-cd_sample.direction.1, -cd_sample.direction.2)
        then cd_sample.direction else (0, 1)) ∧
    (cd_sample.change_direction (0, 1)).direction ≠
      (-cd_sample.direction.1, -cd_sample.direction.2) ∧
    (∀ ds : List (Int × Int), (∀ e ∈ ds, e ∈ headings) →
      (ds.foldl Player.change_direction cd_sample).direction ∈ headings) :=
  change_direction_spec cd_sample (0, 1) (by decide) (by decide)

/-- Every cell of the trail is congruent to the head position modulo the
per-move step, componentwise. -/
def trail_aligned (p : Player) : Prop :=
  ∀ c ∈ p.trail, move_distance ∣ (p.x - c.1) ∧ move_distance ∣ (p.y - c.2)

lemma trail_aligned_init (p : Player) (ht : p.trail = [(p.x, p.y)]) :
    trail_aligned p := by
  intro c hc
  rw [ht] at hc
  simp only [List.mem_singleton] at hc
  subst hc
  simp

lemma trail_aligned_move (p : Player) (hp : trail_aligned p) :
    trail_aligned p.move := by
  by_cases ha : p.alive
  · obtain ⟨hx, hy, htr⟩ := move_components p ha
    intro c hc
    rw [htr] at hc
    have hmem : c ∈ p.trail ++ [(p.x + p.direction.1 * move_distance,
        p.y + p.direction.2 * move_distance)] := by
      by_cases hlen : 1000 < p.trail.length + 1
      · rw [if_pos hlen] at hc
        exact List.drop_subset _ _ hc
      · rw [if_neg hlen] at hc
        exact hc
    rw [hx, hy]
    rcases List.mem_append.1 hmem with hold | hnew
    · obtain ⟨h1, h2⟩ := hp c hold
      constructor
      · have he : p.x + p.direction.1 * move_distance - c.1 =
            (p.x - c.1) + p.direction.1 * move_distance := by ring
        rw [he]
        exact dvd_add h1 (dvd_mul_left move_distance p.direction.1)
      · have he : p.y + p.direction.2 * move_distance - c.2 =
            (p.y - c.2) + p.direction.2 * move_distance := by ring
        rw [he]
        exact dvd_add h2 (dvd_mul_left move_distance p.direction.2)
    · simp only [List.mem_singleton] at hnew
      subst hnew
      simp
  · simp only [Bool.not_eq_true] at ha
    intro c hc
    simp only [Player.move, ha, Bool.not_false, if_pos] at hc ⊢
    exact hp c hc

lemma trail_aligned_change_direction (p : Player) (d : Int × Int)
    (hp : trail_aligned p) : trail_aligned (p.change_direction d) := by
  unfold Player.change_direction
  split_ifs with h1 h2
  · exact hp
  · intro c hc
    exact hp c hc
  · exact hp

lemma trail_aligned_run (ops : List POp) (p : Player) (hp : trail_aligned p) :
    trail_aligned (run_ops p ops) := by
  induction ops generalizing p with
  | nil => exact hp
  | cons o rest ih =>
    have hstep : trail_aligned (apply_op p o) := by
      cases o with
      | doMove => exact trail_aligned_move p hp
      | doTurn d => exact trail_aligned_change_direction p d hp
    simpa [run_ops, List.foldl_cons] using ih (apply_op p o) hstep

lemma grid_lt_step : (GRID_SIZE : Int) < move_distance := by decide

lemma aligned_overlap_eq (a b : Int) (hdvd : move_distance ∣ (a - b))
    (habs : |a - b| < GRID_SIZE) : a = b := by
  have h0 : a - b = 0 :=
    Int.eq_zero_of_abs_lt_dvd hdvd (lt_trans habs grid_lt_step)
  omega

/-- C9: along any sequence of `move` / `change_direction` calls from a
freshly constructed player (trail seeded with the start position), any two
trail cells differ componentwise by a multiple of `move_distance`; hence the
strict-`GRID_SIZE` overlap test of `check_collision`'s self-trail branch can
only fire on an exact coordinate coincidence with an earlier trail cell, and
likewise for the one-step lookahead cells of the AI's own-trail safety
test. -/
theorem trail_exact_revisit (p0 : Player) (ops : List POp)
    (ht : p0.trail = [(p0.x, p0.y)]) :
    (∀ c1 ∈ (run_ops p0 ops).trail, ∀ c2 ∈ (run_ops p0 ops).trail,
      move_distance ∣ (c1.1 - c2.1) ∧ move_distance ∣ (c1.2 - c2.2)) ∧
    (∀ c ∈ (run_ops p0 ops).trail.dropLast,
      overlaps (run_ops p0 ops).x (run_ops p0 ops).y c = true →
      ((run_ops p0 ops).x, (run_ops p0 ops).y) = c) ∧
    (∀ d : Int × Int, ∀ c ∈ (run_ops p0 ops).trail.dropLast,
      overlaps ((run_ops p0 ops).x + d.1 * move_distance)
        ((run_ops p0 ops).y + d.2 * move_distance) c = true →
      ((run_ops p0 ops).x + d.1 * move_distance,
        (run_ops p0 ops).y + d.2 * move_distance) = c) := by
  have hal : trail_aligned (run_ops p0 ops) :=
    trail_aligned_run ops p0 (trail_aligned_init p0 ht)
  refine ⟨?_, ?_, ?_⟩
  · intro c1 h1 c2 h2
    obtain ⟨ha1, hb1⟩ := hal c1 h1
    obtain ⟨ha2, hb2⟩ := hal c2 h2
    constructor
    · have he : c1.1 - c2.1 = ((run_ops p0 ops).x - c2.1) - ((run_ops p0 ops).x - c1.1) := by
        ring
      rw [he]
      exact dvd_sub ha2 ha1
    · have he : c1.2 - c2.2 = ((run_ops p0 ops).y - c2.2) - ((run_ops p0 ops).y - c1.2) := by
        ring
      rw [he]
      exact dvd_sub hb2 hb1
  · intro c hc hov
    obtain ⟨ha1, hb1⟩ := hal c (List.dropLast_subset _ hc)
    simp only [overlaps, decide_eq_true_eq] at hov
    have hx := aligned_overlap_eq _ _ ha1 hov.1
    have hy := aligned_overlap_eq _ _ hb1 hov.2
    cases c
    simp only [Prod.mk.injEq]
    exact ⟨hx, hy⟩
  · intro d c hc hov
    obtain ⟨ha1, hb1⟩ := hal c (List.dropLast_subset _ hc)
    simp only [overlaps, decide_eq_true_eq] at hov
    have hdx : move_distance ∣ ((run_ops p0 ops).x + d.1 * move_distance - c.1) := by
      have he : (run_ops p0 ops).x + d.1 * move_distance - c.1 =
          ((run_ops p0 ops).x - c.1) + d.1 * move_distance := by ring
      rw [he]
      exact dvd_add ha1 (dvd_mul_left move_distance d.1)
    have hdy : move_distance ∣ ((run_ops p0 ops).y + d.2 * move_distance - c.2) := by
      have he : (run_ops p0 ops).y + d.2 * move_distance - c.2 =
          ((run_ops p0 ops).y - c.2) + d.2 * move_distance := by ring
      rw [he]
      exact dvd_add hb1 (dvd_mul_left move_distance d.2)
    have hx := aligned_overlap_eq _ _ hdx hov.1
    have hy := aligned_overlap_eq _ _ hdy hov.2
    cases c
    simp only [Prod.mk.injEq]
    exact ⟨hx, hy⟩

/-- A concrete fresh player and operation sequence for the C9 witness. -/
def revisit_sample : Player := Player.init 100 200 NEON_BLUE [] "Player 1"

def revisit_ops : List POp := [POp.doMove, POp.doTurn (0, 1), POp.doMove]

/-- Witness for C9 at a concrete fresh player and operation sequence. -/
theorem trail_exact_revisit_w :
    (∀ c1 ∈ (run_ops revisit_sample revisit_ops).trail,
      ∀ c2 ∈ (run_ops revisit_sample revisit_ops).trail,
      move_distance ∣ (c1.1 - c2.1) ∧ move_distance ∣ (c1.2 - c2.2)) ∧
    (∀ c ∈ (run_ops revisit_sample revisit_ops).trail.dropLast,
      overlaps (run_ops revisit_sample revisit_ops).x
        (run_ops revisit_sample revisit_ops).y c = true →
      ((run_ops revisit_sample revisit_ops).x,
        (run_ops revisit_sample revisit_ops).y) = c) ∧
    (∀ d : Int × Int, ∀ c ∈ (run_ops revisit_sample revisit_ops).trail.dropLast,
      overlaps ((run_ops revisit_sample revisit_ops).x + d.1 * move_distance)
        ((run_ops revisit_sample revisit_ops).y + d.2 * move_distance) c = true →
      ((run_ops revisit_sample revisit_ops).x + d.1 * move_distance,
        (run_ops revisit_sample revisit_ops).y + d.2 * move_distance) = c) :=
  trail_exact_revisit revisit_sample revisit_ops rfl

lemma self_branch_iff (p : Player) :
    ((decide (1 < p.trail.length) &&
        p.trail.dropLast.any fun c => overlaps p.x p.y c) = true) ↔
      ∃ c ∈ p.trail.dropLast, |p.x - c.1| < GRID_SIZE ∧ |p.y - c.2| < GRID_SIZE := by
  simp only [Bool.and_eq_true, decide_eq_true_eq, List.any_eq_true, overlaps]
  constructor
  · rintro ⟨h1, c, hc, hov⟩
    exact ⟨c, hc, hov⟩
  · rintro ⟨c, hc, hov⟩
    refine ⟨?_, c, hc, hov⟩
    by_contra hle
    push_neg at hle
    rw [dropLast_eq_nil_of_length_le_one p.trail (by omega)] at hc
    simp at hc

lemma opp_branch_iff (l : List (Int × Int)) (a b : Int) :
    ((l.any fun c => overlaps a b c) = true) ↔
      ∃ c ∈ l, |a - c.1| < GRID_SIZE ∧ |b - c.2| < GRID_SIZE := by
  simp only [List.any_eq_true, overlaps, decide_eq_true_eq]

/-- C1: `check_collision` is false for a dead player, and for an alive
player it is true exactly when the head is out of bounds (a coordinate
below 0, or at least the screen width or height), or lies strictly within
`GRID_SIZE` on both axes of some cell of the caller's own trail minus its
last entry, or of some cell of the opponent's full trail. -/
theorem check_collision_spec (p other_player : Player) (walls : List (Int × Int))
    (w h : Int) :
    p.check_collision other_player walls w h = true ↔
      p.alive = true ∧
        (p.x < 0 ∨ p.x ≥ w ∨ p.y < 0 ∨ p.y ≥ h ∨
          (∃ c ∈ p.trail.dropLast, |p.x - c.1| < GRID_SIZE ∧ |p.y - c.2| < GRID_SIZE) ∨
          (∃ c ∈ other_player.trail, |p.x - c.1| < GRID_SIZE ∧ |p.y - c.2| < GRID_SIZE)) := by
  by_cases ha : p.alive
  · unfold Player.check_collision
    rw [if_neg (by simp [ha])]
    split_ifs with hw hs ho
    · exact iff_of_true rfl ⟨ha, by tauto⟩
    · have hex := (self_branch_iff p).1 hs
      exact iff_of_true rfl ⟨ha, Or.inr (Or.inr (Or.inr (Or.inr (Or.inl hex))))⟩
    · have hex := (opp_branch_iff other_player.trail p.x p.y).1 ho
      exact iff_of_true rfl ⟨ha, Or.inr (Or.inr (Or.inr (Or.inr (Or.inr hex))))⟩
    · apply iff_of_false (by simp)
      rintro ⟨-, h1 | h2 | h3 | h4 | h5 | h6⟩
      · exact hw (by tauto)
      · exact hw (by tauto)
      · exact hw (by tauto)
      · exact hw (by tauto)
      · exact hs ((self_branch_iff p).2 h5)
      · exact ho ((opp_branch_iff other_player.trail p.x p.y).2 h6)
  · simp only [Bool.not_eq_true] at ha
    unfold Player.check_collision
    rw [if_pos (by simp [ha])]
    simp [ha]

lemma safe_direction_iff (p other_player : Player) (w h : Int) (e : Int × Int) :
    safe_direction p other_player w h e = true ↔
      (0 ≤ p.x + e.1 * move_distance ∧ p.x + e.1 * move_distance < w ∧
        0 ≤ p.y + e.2 * move_distance ∧ p.y + e.2 * move_distance < h ∧
        (∀ c ∈ p.trail.dropLast,
          ¬(|p.x + e.1 * move_distance - c.1| < GRID_SIZE ∧
            |p.y + e.2 * move_distance - c.2| < GRID_SIZE)) ∧
        (∀ c ∈ other_player.trail,
          ¬(|p.x + e.1 * move_distance - c.1| < GRID_SIZE ∧
            |p.y + e.2 * move_distance - c.2| < GRID_SIZE))) := by
  unfold safe_direction
  dsimp only
  split_ifs with h1 h2 h3
  · apply iff_of_false (by simp)
    rintro ⟨k1, k2, k3, k4, -, -⟩
    rcases h1 with z | z | z | z <;> omega
  · apply iff_of_false (by simp)
    rintro ⟨-, -, -, -, hall, -⟩
    rw [List.any_eq_true] at h2
    obtain ⟨c, hc, hov⟩ := h2
    simp only [overlaps, decide_eq_true_eq] at hov
    exact hall c hc hov
  · apply iff_of_false (by simp)
    rintro ⟨-, -, -, -, -, hall⟩
    rw [List.any_eq_true] at h3
    obtain ⟨c, hc, hov⟩ := h3
    simp only [overlaps, decide_eq_true_eq] at hov
    exact hall c hc hov
  · apply iff_of_true rfl
    push_neg at h1
    refine ⟨h1.1, h1.2.1, h1.2.2.1, h1.2.2.2, ?_, ?_⟩
    · intro c hc hov
      apply h2
      rw [List.any_eq_true]
      refine ⟨c, hc, ?_⟩
      simp only [overlaps, decide_eq_true_eq]
      exact hov
    · intro c hc hov
      apply h3
      rw [List.any_eq_true]
      refine ⟨c, hc, ?_⟩
      simp only [overlaps, decide_eq_true_eq]
      exact hov

lemma change_direction_adopts (p : Player) (n : Int × Int) (ha : p.alive = true)
    (hne : n ≠ (-p.direction.1, -p.direction.2)) :
    (p.change_direction n).direction = n := by
  unfold Player.change_direction
  rw [if_neg (by simp [ha]), if_pos hne]

lemma headD_mem {α : Type} (l : List α) (d : α) (hne : l ≠ []) : l.headD d ∈ l := by
  cases l with
  | nil => exact absurd rfl hne
  | cons a t => simp

lemma candidates_ne_nil (o : Int × Int) :
    headings.filter (fun e => decide (e ≠ o)) ≠ [] := by
  intro hnil
  by_cases h1 : ((1 : Int), (0 : Int)) = o
  · have h2 : ((-1 : Int), (0 : Int)) ∈ headings.filter (fun e => decide (e ≠ o)) := by
      rw [List.mem_filter]
      subst h1
      exact ⟨by simp [headings], by decide⟩
    rw [hnil] at h2
    simp at h2
  · have h2 : ((1 : Int), (0 : Int)) ∈ headings.filter (fun e => decide (e ≠ o)) := by
      rw [List.mem_filter]
      exact ⟨by simp [headings], decide_eq_true h1⟩
    rw [hnil] at h2
    simp at h2

/-- C6: for an alive AI player with a unit heading, a candidate heading is
safe exactly when the cell one `move_distance` step along it lies inside
`[0, w) × [0, h)` and overlaps (strictly within `GRID_SIZE` on both axes)
no cell of the AI's own trail minus its last entry and no cell of the
opponent's full trail; and `make_decision` adopts the current heading when
it is itself safe, else the first safe candidate in the fixed order
right, left, down, up with the opposite heading removed, else the first
candidate of that order regardless of safety. -/
theorem make_decision_spec (p other_player : Player) (walls : List (Int × Int))
    (w h : Int) (ha : p.alive = true) (hd : p.direction ∈ headings) :
    (∀ e : Int × Int,
      safe_direction p other_player w h e = true ↔
        (0 ≤ p.x + e.1 * move_distance ∧ p.x + e.1 * move_distance < w ∧
          0 ≤ p.y + e.2 * move_distance ∧ p.y + e.2 * move_distance < h ∧
          (∀ c ∈ p.trail.dropLast,
            ¬(|p.x + e.1 * move_distance - c.1| < GRID_SIZE ∧
              |p.y + e.2 * move_distance - c.2| < GRID_SIZE)) ∧
          (∀ c ∈ other_player.trail,
            ¬(|p.x + e.1 * move_distance - c.1| < GRID_SIZE ∧
              |p.y + e.2 * move_distance - c.2| < GRID_SIZE)))) ∧
    (AIPlayer.make_decision p other_player walls w h).direction =
      (if safe_direction p other_player w h p.direction = true then p.direction
       else
         match (headings.filter fun e => decide (e ≠ (-p.direction.1, -p.direction.2))).filter
             (fun e => safe_direction p other_player w h e) with
         | e :: _ => e
         | [] =>
           (headings.filter fun e => decide (e ≠ (-p.direction.1, -p.direction.2))).headD
             (1, 0)) := by
  have hne_opp := heading_ne_opposite p.direction hd
  have hcur_mem_dirs :
      p.direction ∈ headings.filter (fun e => decide (e ≠ (-p.direction.1, -p.direction.2))) :=
    List.mem_filter.2 ⟨hd, decide_eq_true hne_opp⟩
  have hmd : AIPlayer.make_decision p other_player walls w h =
      p.change_direction
        (match (headings.filter fun e => decide (e ≠ (-p.direction.1, -p.direction.2))).filter
            (fun e => safe_direction p other_player w h e) with
          | [] =>
            (headings.filter fun e => decide (e ≠ (-p.direction.1, -p.direction.2))).headD (1, 0)
          | d :: _ =>
            if p.direction ∈
                (headings.filter fun e => decide (e ≠ (-p.direction.1, -p.direction.2))).filter
                  (fun e => safe_direction p other_player w h e)
            then p.direction else d) := by
    unfold AIPlayer.make_decision
    rw [if_neg (by simp [ha])]
    rfl
  refine ⟨fun e => safe_direction_iff p other_player w h e, ?_⟩
  rw [hmd]
  cases hsl : (headings.filter fun e => decide (e ≠ (-p.direction.1, -p.direction.2))).filter
      (fun e => safe_direction p other_player w h e) with
  | nil =>
    have hcur : ¬ safe_direction p other_player w h p.direction = true := by
      intro hs
      have hmem : p.direction ∈
          (headings.filter fun e => decide (e ≠ (-p.direction.1, -p.direction.2))).filter
            (fun e => safe_direction p other_player w h e) :=
        List.mem_filter.2 ⟨hcur_mem_dirs, hs⟩
      rw [hsl] at hmem
      simp at hmem
    rw [if_neg hcur]
    have hdne := candidates_ne_nil (-p.direction.1, -p.direction.2)
    have hmem := headD_mem _ (((1 : Int), (0 : Int))) hdne
    exact change_direction_adopts p _ ha (of_decide_eq_true (List.mem_filter.1 hmem).2)
  | cons e rest =>
    have he_mem : e ∈
        (headings.filter fun e => decide (e ≠ (-p.direction.1, -p.direction.2))).filter
          (fun e => safe_direction p other_player w h e) := by
      rw [hsl]
      simp
    have he_ne : e ≠ (-p.direction.1, -p.direction.2) :=
      of_decide_eq_true (List.mem_filter.1 (List.mem_filter.1 he_mem).1).2
    by_cases hs : safe_direction p other_player w h p.direction = true
    · have hcur_mem : p.direction ∈ e :: rest := by
        rw [← hsl]
        exact List.mem_filter.2 ⟨hcur_mem_dirs, hs⟩
      rw [if_pos hs]
      dsimp only
      rw [if_pos hcur_mem]
      exact change_direction_adopts p _ ha hne_opp
    · have hcur_notmem : p.direction ∉ e :: rest := by
        intro hmem2
        apply hs
        rw [← hsl] at hmem2
        exact (List.mem_filter.1 hmem2).2
      rw [if_neg hs]
      dsimp only
      rw [if_neg hcur_notmem]
      exact change_direction_adopts p _ ha he_ne

/-- Concrete AI player and opponent for the C6 witness. -/
def ai_sample : Player := AIPlayer.init 1040 440 NEON_ORANGE "AI"

def ai_opponent_sample : Player := Player.init 340 440 NEON_BLUE player1_controls "Player 1"

/-- Witness for C6 at a concrete alive AI player. -/
theorem make_decision_spec_w :
    (∀ e : Int × Int,
      safe_direction ai_sample ai_opponent_sample 1400 900 e = true ↔
        (0 ≤ ai_sample.x + e.1 * move_distance ∧ ai_sample.x + e.1 * move_distance < 1400 ∧
          0 ≤ ai_sample.y + e.2 * move_distance ∧ ai_sample.y + e.2 * move_distance < 900 ∧
          (∀ c ∈ ai_sample.trail.dropLast,
            ¬(|ai_sample.x + e.1 * move_distance - c.1| < GRID_SIZE ∧
              |ai_sample.y + e.2 * move_distance - c.2| < GRID_SIZE)) ∧
          (∀ c ∈ ai_opponent_sample.trail,
            ¬(|ai_sample.x + e.1 * move_distance - c.1| < GRID_SIZE ∧
              |ai_sample.y + e.2 * move_distance - c.2| < GRID_SIZE)))) ∧
    (AIPlayer.make_decision ai_sample ai_opponent_sample [] 1400 900).direction =
      (if safe_direction ai_sample ai_opponent_sample 1400 900 ai_sample.direction = true then
        ai_sample.direction
       else
         match (headings.filter fun e =>
             decide (e ≠ (-ai_sample.direction.1, -ai_sample.direction.2))).filter
             (fun e => safe_direction ai_sample ai_opponent_sample 1400 900 e) with
         | e :: _ => e
         | [] =>
           (headings.filter fun e =>
             decide (e ≠ (-ai_sample.direction.1, -ai_sample.direction.2))).headD (1, 0)) :=
  make_decision_spec ai_sample ai_opponent_sample [] 1400 900 rfl (by decide)

lemma drainQueue_playing (ai : Bool) (q : List Key) (ps : Player × Player) :
    drainQueue GState.PLAYING ai q ps =
      (q.foldl (fun s k => apply_key ai s.1 s.2 k) ps, []) := by
  induction q generalizing ps with
  | nil => rfl
  | cons k rest ih =>
    simp only [drainQueue, List.foldl_cons]
    rw [if_pos trivial]
    exact ih _

lemma drainQueue_stopped (st : GState) (hst : st ≠ GState.PLAYING) (ai : Bool)
    (q : List Key) (ps : Player × Player) :
    drainQueue st ai q ps = (ps, q) := by
  cases q with
  | nil => rfl
  | cons k rest =>
    simp only [drainQueue]
    rw [if_neg hst]

lemma process_input_queue_idem (g2 : TronGame) (hq : g2.input_queue = []) :
    process_input_queue g2 = g2 := by
  obtain ⟨gfs, sw, sh, st, tm, wn, p1, p2, ai, q⟩ := g2
  dsimp only at hq
  subst hq
  rfl

/-- C8: while the phase is `PLAYING`, a pressed directional key is only
appended to the FIFO input queue (no heading changes at event time); the
queue-drain loop consumes the whole queue oldest-first through
`apply_key` (which routes each key to its bound player via
`change_direction`) when the phase is `PLAYING` and leaves the queue
untouched otherwise; after `process_input_queue` the queue is empty; and a
tick computes the same result as first replacing the players by the drained
players with an emptied queue — the queue's whole effect lands before any
movement of the tick. -/
theorem input_queue_spec (g : TronGame) (fs : Int × Int) (key : Key) (now : Nat)
    (h : g.state = GState.PLAYING) :
    (key ∈ directional_keys →
      handle_key_event fs g key = some { g with input_queue := g.input_queue ++ [key] }) ∧
    (∀ ai : Bool, ∀ q : List Key, ∀ ps : Player × Player,
      drainQueue GState.PLAYING ai q ps =
        (q.foldl (fun s k => apply_key ai s.1 s.2 k) ps, [])) ∧
    (∀ st : GState, st ≠ GState.PLAYING → ∀ ai : Bool, ∀ q : List Key,
      ∀ ps : Player × Player, drainQueue st ai q ps = (ps, q)) ∧
    (process_input_queue g).input_queue = [] ∧
    update g now =
      update { g with
        player1 := (process_input_queue g).player1,
        player2 := (process_input_queue g).player2, input_queue := [] } now := by
  have hq4 : (process_input_queue g).input_queue = [] := by
    unfold process_input_queue
    dsimp only
    rw [h, drainQueue_playing]
  refine ⟨?_, fun ai q ps => drainQueue_playing ai q ps,
    fun st hst ai q ps => drainQueue_stopped st hst ai q ps, hq4, ?_⟩
  · intro hk
    fin_cases hk <;> simp [handle_key_event, h, directional_keys]
  · have hq : { g with
        player1 := (process_input_queue g).player1,
        player2 := (process_input_queue g).player2, input_queue := [] } =
        process_input_queue g := by
      obtain ⟨gfs, sw, sh, st, tm, wn, p1, p2, ai, q⟩ := g
      dsimp only at h
      subst h
      unfold process_input_queue
      dsimp only
      rw [drainQueue_playing]
    rw [hq]
    unfold update
    rw [if_neg (by simp [h])]
    have hst2 : (process_input_queue g).state = g.state := rfl
    rw [if_neg (by rw [hst2, h]; simp)]
    rw [process_input_queue_idem (process_input_queue g) hq4]

/-- A concrete in-play session (a fresh two-player game with one queued
key) for the C8 and C2 witnesses. -/
def play_sample : TronGame :=
  { reset_game initial_game with input_queue := [Key.K_UP] }

/-- Witness for C8 at a concrete in-play session and directional key. -/
theorem input_queue_spec_w :
    (Key.K_DOWN ∈ directional_keys →
      handle_key_event (1920, 1080) play_sample Key.K_DOWN =
        some { play_sample with input_queue := play_sample.input_queue ++ [Key.K_DOWN] }) ∧
    (∀ ai : Bool, ∀ q : List Key, ∀ ps : Player × Player,
      drainQueue GState.PLAYING ai q ps =
        (q.foldl (fun s k => apply_key ai s.1 s.2 k) ps, [])) ∧
    (∀ st : GState, st ≠ GState.PLAYING → ∀ ai : Bool, ∀ q : List Key,
      ∀ ps : Player × Player, drainQueue st ai q ps = (ps, q)) ∧
    (process_input_queue play_sample).input_queue = [] ∧
    update play_sample 3 =
      update { play_sample with
        player1 := (process_input_queue play_sample).player1,
        player2 := (process_input_queue play_sample).player2, input_queue := [] } 3 :=
  input_queue_spec play_sample (1920, 1080) Key.K_DOWN 3 rfl

lemma game_over_step_spec (g2 : TronGame) (now : Nat) (hst : g2.state = GState.PLAYING) :
    (game_over_step g2 now).player1 = g2.player1 ∧
    (game_over_step g2 now).player2 = g2.player2 ∧
    ((game_over_step g2 now).state = GState.GAME_OVER ↔
      (g2.player1.alive = false ∨ g2.player2.alive = false)) ∧
    ((g2.player1.alive = false ∨ g2.player2.alive = false) →
      (game_over_step g2 now).game_over_timer = now) ∧
    (g2.player1.alive = false ∧ g2.player2.alive = false →
      (game_over_step g2 now).winner = some "Tie") ∧
    (g2.player1.alive = false ∧ g2.player2.alive = true →
      (game_over_step g2 now).winner = some g2.player2.name) ∧
    (g2.player1.alive = true ∧ g2.player2.alive = false →
      (game_over_step g2 now).winner = some g2.player1.name) ∧
    (g2.player1.alive = true ∧ g2.player2.alive = true →
      (game_over_step g2 now).state = GState.PLAYING ∧
        (game_over_step g2 now).winner = g2.winner) := by
  unfold game_over_step
  by_cases h1 : g2.player1.alive = true <;> by_cases h2 : g2.player2.alive = true <;>
    simp only [Bool.not_eq_true] at h1 h2 <;>
    simp [h1, h2, hst]

lemma ai_step_screen_width (g : TronGame) :
    (ai_step g).screen_width = g.screen_width := by
  unfold ai_step
  split <;> rfl

lemma ai_step_screen_height (g : TronGame) :
    (ai_step g).screen_height = g.screen_height := by
  unfold ai_step
  split <;> rfl

lemma ai_step_state (g : TronGame) : (ai_step g).state = g.state := by
  unfold ai_step
  split <;> rfl

lemma ai_step_winner (g : TronGame) : (ai_step g).winner = g.winner := by
  unfold ai_step
  split <;> rfl

/-- C2: in a `PLAYING` tick both players move (after queue drain and the AI
decision) before either collision check runs — both checks compare the two
post-move players — and each colliding player is crashed; the phase becomes
`GAME_OVER` exactly when a player ends the tick dead, the transition
timestamp is recorded, the winner is "Tie" when both are dead and the sole
survivor's name when exactly one is, and the phase stays `PLAYING` with the
winner untouched when both survive. -/
theorem update_playing_spec (g : TronGame) (now : Nat) (h : g.state = GState.PLAYING) :
    ∃ q1 q2 : Player,
      q1 = (ai_step (process_input_queue g)).player1.move ∧
      q2 = (ai_step (process_input_queue g)).player2.move ∧
      (update g now).player1 =
        (if q1.check_collision q2 [] g.screen_width g.screen_height then q1.crash else q1) ∧
      (update g now).player2 =
        (if q2.check_collision
            (if q1.check_collision q2 [] g.screen_width g.screen_height then q1.crash else q1)
            [] g.screen_width g.screen_height then q2.crash else q2) ∧
      ((update g now).state = GState.GAME_OVER ↔
        ((update g now).player1.alive = false ∨ (update g now).player2.alive = false)) ∧
      (((update g now).player1.alive = false ∨ (update g now).player2.alive = false) →
        (update g now).game_over_timer = now) ∧
      ((update g now).player1.alive = false ∧ (update g now).player2.alive = false →
        (update g now).winner = some "Tie") ∧
      ((update g now).player1.alive = false ∧ (update g now).player2.alive = true →
        (update g now).winner = some (update g now).player2.name) ∧
      ((update g now).player1.alive = true ∧ (update g now).player2.alive = false →
        (update g now).winner = some (update g now).player1.name) ∧
      ((update g now).player1.alive = true ∧ (update g now).player2.alive = true →
        (update g now).state = GState.PLAYING ∧ (update g now).winner = g.winner) := by
  have hsw := ai_step_screen_width (process_input_queue g)
  have hsh := ai_step_screen_height (process_input_queue g)
  have hpw : (process_input_queue g).screen_width = g.screen_width := rfl
  have hph : (process_input_queue g).screen_height = g.screen_height := rfl
  rw [hpw] at hsw
  rw [hph] at hsh
  have hu : update g now =
      game_over_step
        { ai_step (process_input_queue g) with
          player1 :=
            (collide_step (ai_step (process_input_queue g)).screen_width
              (ai_step (process_input_queue g)).screen_height
              (ai_step (process_input_queue g)).player1.move
              (ai_step (process_input_queue g)).player2.move).1,
          player2 :=
            (collide_step (ai_step (process_input_queue g)).screen_width
              (ai_step (process_input_queue g)).screen_height
              (ai_step (process_input_queue g)).player1.move
              (ai_step (process_input_queue g)).player2.move).2 } now := by
    unfold update
    rw [if_neg (by simp [h])]
  have hG2st :
      ({ ai_step (process_input_queue g) with
        player1 :=
          (collide_step (ai_step (process_input_queue g)).screen_width
            (ai_step (process_input_queue g)).screen_height
            (ai_step (process_input_queue g)).player1.move
            (ai_step (process_input_queue g)).player2.move).1,
        player2 :=
          (collide_step (ai_step (process_input_queue g)).screen_width
            (ai_step (process_input_queue g)).screen_height
            (ai_step (process_input_queue g)).player1.move
            (ai_step (process_input_queue g)).player2.move).2 } : TronGame).state =
        GState.PLAYING := by
    have hs1 := ai_step_state (process_input_queue g)
    have hs2 : (process_input_queue g).state = g.state := rfl
    show (ai_step (process_input_queue g)).state = GState.PLAYING
    rw [hs1, hs2, h]
  obtain ⟨hp1, hp2, hiff, htm, hwtie, hw2, hw1, hsur⟩ :=
    game_over_step_spec _ now hG2st
  refine ⟨(ai_step (process_input_queue g)).player1.move,
    (ai_step (process_input_queue g)).player2.move, rfl, rfl, ?_, ?_, ?_, ?_, ?_, ?_, ?_, ?_⟩
  · rw [hu, hp1, ← hsw, ← hsh]
    rfl
  · rw [hu, hp2, ← hsw, ← hsh]
    rfl
  · rw [hu, hp1, hp2]
    exact hiff
  · rw [hu, hp1, hp2]
    exact htm
  · rw [hu, hp1, hp2]
    exact hwtie
  · rw [hu, hp1, hp2]
    exact hw2
  · rw [hu, hp1, hp2]
    exact hw1
  · rw [hu, hp1, hp2]
    intro hb
    obtain ⟨hs, hw⟩ := hsur hb
    refine ⟨hs, ?_⟩
    rw [hw]
    exact ai_step_winner (process_input_queue g)

/-- Witness for C2 at a concrete in-play session. -/
theorem update_playing_spec_w :
    ∃ q1 q2 : Player,
      q1 = (ai_step (process_input_queue play_sample)).player1.move ∧
      q2 = (ai_step (process_input_queue play_sample)).player2.move ∧
      (update play_sample 42).player1 =
        (if q1.check_collision q2 [] play_sample.screen_width play_sample.screen_height
          then q1.crash else q1) ∧
      (update play_sample 42).player2 =
        (if q2.check_collision
            (if q1.check_collision q2 [] play_sample.screen_width play_sample.screen_height
              then q1.crash else q1)
            [] play_sample.screen_width play_sample.screen_height then q2.crash else q2) ∧
      ((update play_sample 42).state = GState.GAME_OVER ↔
        ((update play_sample 42).player1.alive = false ∨
          (update play_sample 42).player2.alive = false)) ∧
      (((update play_sample 42).player1.alive = false ∨
          (update play_sample 42).player2.alive = false) →
        (update play_sample 42).game_over_timer = 42) ∧
      ((update play_sample 42).player1.alive = false ∧
          (update play_sample 42).player2.alive = false →
        (update play_sample 42).winner = some "Tie") ∧
      ((update play_sample 42).player1.alive = false ∧
          (update play_sample 42).player2.alive = true →
        (update play_sample 42).winner = some (update play_sample 42).player2.name) ∧
      ((update play_sample 42).player1.alive = true ∧
          (update play_sample 42).player2.alive = false →
        (update play_sample 42).winner = some (update play_sample 42).player1.name) ∧
      ((update play_sample 42).player1.alive = true ∧
          (update play_sample 42).player2.alive = true →
        (update play_sample 42).state = GState.PLAYING ∧
          (update play_sample 42).winner = play_sample.winner) :=
  update_playing_spec play_sample 42 rfl

/-- C3 (amended): every game start — mode selection `K_1`/`K_2` from the
menu and restart `K_r` from game over all route through `reset_game` — puts
player one at a quarter of the grid width and player two at three quarters,
both at the vertical grid center, with player one heading right; player two
heads left only in AI mode, while in human-vs-human mode it also heads
right (the plain `Player` constructor's default), so the players face each
other only in human-vs-AI mode. -/
theorem reset_positions_facing (g : TronGame) (fs : Int × Int) :
    (reset_game g).player1.x = Int.fdiv (Int.fdiv g.screen_width GRID_SIZE) 4 * GRID_SIZE ∧
    (reset_game g).player1.y = Int.fdiv (Int.fdiv g.screen_height GRID_SIZE) 2 * GRID_SIZE ∧
    (reset_game g).player2.x = Int.fdiv (3 * Int.fdiv g.screen_width GRID_SIZE) 4 * GRID_SIZE ∧
    (reset_game g).player2.y = Int.fdiv (Int.fdiv g.screen_height GRID_SIZE) 2 * GRID_SIZE ∧
    (reset_game g).player1.direction = (1, 0) ∧
    (reset_game g).player2.direction = (if g.ai_mode = true then (-1, 0) else (1, 0)) ∧
    (reset_game g).state = GState.PLAYING ∧
    (g.state = GState.MENU →
      handle_key_event fs g Key.K_1 = some (reset_game { g with ai_mode := false }) ∧
      handle_key_event fs g Key.K_2 = some (reset_game { g with ai_mode := true })) ∧
    (g.state = GState.GAME_OVER →
      handle_key_event fs g Key.K_r = some (reset_game g)) := by
  refine ⟨?_, ?_, ?_, ?_, ?_, ?_, ?_, ?_, ?_⟩
  · simp [reset_game, Player.init]
  · simp [reset_game, Player.init]
  · by_cases hai : g.ai_mode = true <;>
      simp [reset_game, Player.init, AIPlayer.init, hai]
  · by_cases hai : g.ai_mode = true <;>
      simp [reset_game, Player.init, AIPlayer.init, hai]
  · simp [reset_game, Player.init]
  · by_cases hai : g.ai_mode = true <;>
      simp [reset_game, Player.init, AIPlayer.init, hai]
  · simp [reset_game]
  · intro hmenu
    constructor <;> simp [handle_key_event, hmenu]
  · intro hover
    simp [handle_key_event, hover]

/-- C3 counterexample: starting a human-vs-human game from the menu
(`K_1` on the fresh session) leaves both players heading `(1, 0)`: player
two does not head left, so the players do not face each other in
human-vs-human mode. -/
theorem reset_human_mode_not_facing :
    (handle_key_event (1920, 1080) initial_game Key.K_1).map
        (fun g1 => (g1.player1.direction, g1.player2.direction)) =
      some ((1, 0), (1, 0)) ∧
    ¬ (((1 : Int), (0 : Int)) = ((-1 : Int), (0 : Int))) := by
  constructor
  · rfl
  · decide
